import Mathlib

/-!
Verification of the last2hours cache and date layer.

Shallow embedding of `scripts/lib/cache.py`, `scripts/lib/dates.py` and
`scripts/lib/normalize.py`.  Timestamps and timedeltas are modelled as
integer microseconds (Python `datetime`/`timedelta` resolution); filesystem
timestamps (`st_mtime`, `datetime.now().timestamp()`) are modelled as exact
rationals in seconds; Python `float` TTL values are modelled as rationals
(every value that occurs — 0.5, 1.0, 2.0, 6.0, 12.0, 24.0 and exact hour
boundaries — is binary-float exact, so the rational model agrees with the
float computation on everything the theorems touch).
-/

namespace Last2Hours

/-- Python whitespace test for `str.strip`, `str.lower` pipelines and the
regex class `\s` (ASCII range, which is all the repository ever feeds in). -/
def pySpace (c : Char) : Bool :=
  c = ' ' || c = '\t' || c = '\n' || c = '\r' || c = '\x0b' || c = '\x0c'

/-- Model of Python `str.strip()` on a character list. -/
def pyStripL (l : List Char) : List Char :=
  ((l.dropWhile pySpace).reverse.dropWhile pySpace).reverse

/-- Model of Python `str.strip()`. -/
def pyStrip (s : String) : String :=
  ⟨pyStripL s.toList⟩

/-- Model of Python `str.lower()` (ASCII case fold, which is faithful for
every input the repository's patterns can accept). -/
def pyLower (s : String) : String :=
  ⟨s.toList.map Char.toLower⟩

/-- Value of a digit string, as Python `int()` reads a matched `\d+` group. -/
def natOfDigits (l : List Char) : Nat :=
  l.foldl (fun n c => n * 10 + (c.toNat - 48)) 0

/-- Gregorian leap-year test (as Python's `datetime` calendar). -/
def isLeap (y : Int) : Bool :=
  y % 4 = 0 && (y % 100 ≠ 0 || y % 400 = 0)

/-- Days in a month of the proleptic Gregorian calendar. -/
def daysInMonth (y m : Int) : Int :=
  if m = 2 then (if isLeap y then 29 else 28)
  else if m = 4 || m = 6 || m = 9 || m = 11 then 30
  else 31

/-- Day number (days since 1970-01-01) of a civil date, the standard
era-based conversion used to model Python `date`/`datetime` ordinals. -/
def daysFromCivil (y m d : Int) : Int :=
  let y' := y - (if m ≤ 2 then 1 else 0)
  let era := Int.fdiv y' 400
  let yoe := y' - era * 400
  let mp := if m > 2 then m - 3 else m + 9
  let doy := Int.fdiv (153 * mp + 2) 5 + d - 1
  let doe := yoe * 365 + Int.fdiv yoe 4 - Int.fdiv yoe 100 + doy
  era * 146097 + doe - 719468

/-- Civil date (year, month, day) of a day number; inverse of
`daysFromCivil`, used to model `date.isoformat`. -/
def civilFromDays (z : Int) : Int × Int × Int :=
  let z' := z + 719468
  let era := Int.fdiv z' 146097
  let doe := z' - era * 146097
  let yoe := Int.fdiv (doe - Int.fdiv doe 1460 + Int.fdiv doe 36524 - Int.fdiv doe 146096) 365
  let y := yoe + era * 400
  let doy := doe - (365 * yoe + Int.fdiv yoe 4 - Int.fdiv yoe 100)
  let mp := Int.fdiv (5 * doy + 2) 153
  let d := doy - Int.fdiv (153 * mp + 2) 5 + 1
  let m := mp + (if mp < 10 then 3 else -9)
  (y + (if m ≤ 2 then 1 else 0), m, d)

/-- Zero-padded decimal rendering, as Python `%0Nd` / `isoformat` padding. -/
def padNum (width : Nat) (n : Int) : String :=
  let s := toString n.toNat
  ⟨List.replicate (width - s.length) '0'⟩ ++ s

/-- Microseconds per second, hour and day. -/
def usPerSec : Int := 1000000

def usPerHour : Int := 3600000000

def usPerDay : Int := 86400000000

/-- Model of `datetime.date().isoformat()` for a UTC instant given in
microseconds since the epoch. -/
def isoDate (us : Int) : String :=
  let day := Int.fdiv us usPerDay
  let c := civilFromDays day
  padNum 4 c.1 ++ "-" ++ padNum 2 c.2.1 ++ "-" ++ padNum 2 c.2.2

/-- Model of `datetime.isoformat()` for a UTC-aware instant given in
microseconds since the epoch (microseconds printed only when nonzero,
offset rendered as `+00:00`, exactly as CPython does). -/
def isoDatetime (us : Int) : String :=
  let day := Int.fdiv us usPerDay
  let rem := us - day * usPerDay
  let secOfDay := Int.fdiv rem usPerSec
  let micro := rem % usPerSec
  let hh := Int.fdiv secOfDay 3600
  let mm := Int.fdiv (secOfDay % 3600) 60
  let ss := secOfDay % 60
  isoDate us ++ "T" ++ padNum 2 hh ++ ":" ++ padNum 2 mm ++ ":" ++ padNum 2 ss ++
    (if micro = 0 then "" else "." ++ padNum 6 micro) ++ "+00:00"

/-- The `Union[int, timedelta]` dual-typed duration parameter several
operations accept (`int` means days, for backwards compatibility). -/
inductive PyDuration where
  | int (n : Int)
  | td (us : Int)
deriving DecidableEq

/-- Microseconds of `timedelta(days = n)`. -/
def timedelta_days (n : Int) : Int := n * 86400000000

/-- The `isinstance(duration, int)` conversion every dual-typed operation
performs first: an `int` is treated as that many days. -/
def toUs : PyDuration → Int
  | .int n => timedelta_days n
  | .td us => us

/-! ## cache.py -/

/-- Constant `DEFAULT_TTL_HOURS` from `cache.py`. -/
def DEFAULT_TTL_HOURS : ℚ := 24

/-- Constant `MODEL_CACHE_TTL_DAYS` from `cache.py`. -/
def MODEL_CACHE_TTL_DAYS : ℚ := 7

/-- Search-window length in hours, as `duration.total_seconds() / 3600`
computes it inside `calculate_ttl`. -/
def totalHours (d : PyDuration) : ℚ :=
  ((toUs d : ℚ) / 1000000) / 3600

/-- Embedding of `cache.calculate_ttl`: adaptive TTL (in hours) derived
from the search duration by an if/elif chain on the window's total hours. -/
def calculate_ttl (duration : PyDuration) : ℚ :=
  if totalHours duration ≤ 2 then 0.5
  else if totalHours duration ≤ 6 then 1.0
  else if totalHours duration ≤ 24 then 2.0
  else if totalHours duration ≤ 72 then 6.0
  else if totalHours duration ≤ 168 then 12.0
  else DEFAULT_TTL_HOURS

/-- Observable state of one on-disk cache file: whether a path exists,
what `stat` reports as mtime (POSIX seconds; `none` models an `OSError`
from `stat`), and what opening-and-JSON-decoding the file would produce
(`none` models an `OSError` on open/read or a `JSONDecodeError`). -/
structure CFile (α : Type) where
  exists_ : Bool
  statMtime : Option ℚ
  content : Option α
deriving DecidableEq

/-- Embedding of `cache.is_cache_valid`: false when the file does not
exist or `stat` raises; otherwise the age in hours must be strictly less
than the TTL. `now` is the current UTC time in POSIX seconds. -/
def is_cache_valid (now : ℚ) (f : CFile α) (ttl_hours : ℚ) : Bool :=
  if !f.exists_ then false
  else
    match f.statMtime with
    | none => false
    | some mtime => decide ((now - mtime) / 3600 < ttl_hours)

/-- Embedding of `cache.load_cache`: `none` unless the file is valid and
its content opens and parses. -/
def load_cache (now : ℚ) (f : CFile α) (ttl_hours : ℚ) : Option α :=
  if !is_cache_valid now f ttl_hours then none
  else f.content

/-- Outcome of the filesystem calls `save_cache` makes: whether
`CACHE_DIR.mkdir` succeeds and whether the open/`json.dump` succeeds. -/
structure IOEnv where
  mkdirOk : Bool
  writeOk : Bool
deriving DecidableEq

/-- Embedding of `cache.ensure_cache_dir`: `mkdir` either succeeds or
raises an `OSError` (modelled as `Except.error`); nothing is caught here. -/
def ensure_cache_dir (e : IOEnv) : Except Unit Unit :=
  if e.mkdirOk then .ok () else .error ()

/-- Embedding of `cache.save_cache` acting on the file keyed by the call:
`ensure_cache_dir()` runs outside any handler, then the open/`json.dump`
is wrapped in `try ... except OSError: pass`.  The result carries the
on-disk content for that key after the call (`disk` is its content
before). -/
def save_cache (e : IOEnv) (disk : Option α) (data : α) : Except Unit (Option α) := do
  let _ ← ensure_cache_dir e
  if e.writeOk then
    return some data
  else
    return disk

/-- Python `dict` holding JSON string values, as the model-selection
cache file stores it: an association list with unique keys. -/
abbrev Dict := List (String × String)

/-- Python `dict` lookup `d.get(k)`. -/
def dget (d : Dict) (k : String) : Option String :=
  (d.find? (fun p => p.1 == k)).map (·.2)

/-- Python `dict` assignment `d[k] = v`: replaces in place when the key
exists, appends otherwise. -/
def dset (d : Dict) (k v : String) : Dict :=
  if (d.find? (fun p => p.1 == k)).isSome then
    d.map (fun p => if p.1 == k then (k, v) else p)
  else
    d ++ [(k, v)]

/-- Embedding of `cache.load_model_cache`: empty dict unless the model
cache file passes `is_cache_valid` with the 7-day TTL and parses. -/
def load_model_cache (now : ℚ) (f : CFile Dict) : Dict :=
  if !is_cache_valid now f (MODEL_CACHE_TTL_DAYS * 24) then []
  else f.content.getD []

/-- Embedding of `cache.save_model_cache`: `ensure_cache_dir` (uncaught),
then a swallowed write; on success the file now holds `data` with mtime
`now`, on swallowed failure the file is unchanged. -/
def save_model_cache (e : IOEnv) (f : CFile Dict) (now : ℚ) (data : Dict) :
    Except Unit (CFile Dict) := do
  let _ ← ensure_cache_dir e
  if e.writeOk then
    return ⟨true, some now, some data⟩
  else
    return f

/-- Embedding of `cache.set_cached_model`: load the map through the
TTL-checking `load_model_cache`, set the provider key and `updated_at`,
write the whole map back.  `nowIso` is the `datetime.now().isoformat()`
string stored under `updated_at`. -/
def set_cached_model (provider model : String) (e : IOEnv) (f : CFile Dict)
    (now : ℚ) (nowIso : String) : Except Unit (CFile Dict) :=
  let cache := load_model_cache now f
  let cache := dset cache provider model
  let cache := dset cache "updated_at" nowIso
  save_model_cache e f now cache

/-! ## dates.py -/

/-- The unit tokens of the `parse_range` regex alternation
`h|hours?|d|days?|w|weeks?|mo|months?`, spelled out. -/
def unitTokens : List (List Char) :=
  ["h", "hour", "hours", "d", "day", "days", "w", "week", "weeks",
   "mo", "month", "months"].map String.toList

/-- Matcher for the anchored regex
`^(\d+)\s*(h|hours?|d|days?|w|weeks?|mo|months?)$` applied by
`parse_range`: a nonempty digit run, optional whitespace, then the rest of
the string must be exactly one unit token (no unit token starts with a
digit or a space, so the greedy scan is exact). -/
def matchRange (cs : List Char) : Option (Nat × List Char) :=
  if (cs.takeWhile Char.isDigit).isEmpty then none
  else if (cs.dropWhile Char.isDigit).dropWhile pySpace ∈ unitTokens then
    some (natOfDigits (cs.takeWhile Char.isDigit),
      (cs.dropWhile Char.isDigit).dropWhile pySpace)
  else none

/-- Microseconds for one matched unit group, as the if/elif chain at the
end of `parse_range` maps it (a month is exactly 30 days). -/
def unitUs (u : List Char) : Int :=
  if u = ['h'] || u = "hour".toList || u = "hours".toList then 3600000000
  else if u = ['d'] || u = "day".toList || u = "days".toList then 86400000000
  else if u = ['w'] || u = "week".toList || u = "weeks".toList then 604800000000
  else 2592000000000

/-- Embedding of `dates.parse_range`: strip and lowercase, match the
anchored pattern, map amount and unit to a timedelta (microseconds);
non-matching text raises `ValueError` whose message carries the
normalized input. -/
def parse_range (range_str : String) : Except String Int :=
  match matchRange (pyLower (pyStrip range_str)).toList with
  | none =>
      .error ("Invalid range format: \x27" ++ pyLower (pyStrip range_str) ++
        "\x27. Use formats like \x272 hours\x27, \x273 days\x27, \x272 weeks\x27, \x276 months\x27")
  | some (amount, unit) => .ok ((amount : Int) * unitUs unit)

/-- Declarative reading of the same pattern, following the spec's words:
the text is an unsigned integer (nonempty digit run), then whitespace,
then a recognized unit token. -/
def RangeSpec (cs : List Char) : Prop :=
  ∃ ds sp u, cs = ds ++ (sp ++ u) ∧ ds ≠ [] ∧
    (∀ c ∈ ds, c.isDigit = true) ∧ (∀ c ∈ sp, pySpace c = true) ∧ u ∈ unitTokens

/-- Embedding of `dates.get_date_range`: `(now - duration, now)`, as full
isoformat timestamps for sub-day durations and date-only strings
otherwise (`now` in microseconds since the epoch, UTC). -/
def get_date_range (duration : PyDuration) (now : Int) : String × String :=
  let dur := toUs duration
  let from_dt := now - dur
  if dur < timedelta_days 1 then (isoDatetime from_dt, isoDatetime now)
  else (isoDate from_dt, isoDate now)

/-- Exactly four ASCII digits, as the strptime `%Y` pattern. -/
def parse4d : List Char → Option (Nat × List Char)
  | a :: b :: c :: d :: t =>
      if a.isDigit && b.isDigit && c.isDigit && d.isDigit then
        some (natOfDigits [a, b, c, d], t)
      else none
  | _ => none

/-- One or two ASCII digits, greedily, as the strptime `%m`/`%d`/`%H`/
`%M`/`%S` patterns behave on these formats (every field is followed by a
non-digit separator or the end, so greediness is exact). -/
def parse12d : List Char → Option (Nat × List Char)
  | [] => none
  | [a] => if a.isDigit then some (a.toNat - 48, []) else none
  | a :: b :: t =>
      if a.isDigit then
        if b.isDigit then some (natOfDigits [a, b], t)
        else some (a.toNat - 48, b :: t)
      else none

/-- One expected literal character. -/
def expectChar (c : Char) : List Char → Option (List Char)
  | x :: t => if x = c then some t else none
  | [] => none

/-- The `%Y-%m-%d` prefix of every strptime format in `parse_date`,
including the range validation `datetime()` performs (month 1–12, day
within the month). -/
def parseDatePart (l : List Char) : Option ((Int × Int × Int) × List Char) := do
  let (y, t1) ← parse4d l
  let t2 ← expectChar '-' t1
  let (m, t3) ← parse12d t2
  let t4 ← expectChar '-' t3
  let (d, t5) ← parse12d t4
  if 1 ≤ m ∧ m ≤ 12 ∧ 1 ≤ d ∧ (d : Int) ≤ daysInMonth y m then
    return ((y, m, d), t5)
  else none

/-- The `%H:%M:%S` section, including the range validation `datetime()`
performs (hour 0–23, minute and second 0–59). -/
def parseTimePart (l : List Char) : Option ((Nat × Nat × Nat) × List Char) := do
  let (h, t1) ← parse12d l
  let t2 ← expectChar ':' t1
  let (m, t3) ← parse12d t2
  let t4 ← expectChar ':' t3
  let (s, t5) ← parse12d t4
  if h ≤ 23 ∧ m ≤ 59 ∧ s ≤ 59 then return ((h, m, s), t5) else none

/-- Microseconds since the epoch of parsed date/time components read as
UTC (the code's `.replace(tzinfo=timezone.utc)` discards any parsed
offset, so components are always interpreted as UTC). -/
def usFromParts (y m d : Int) (hh mm ss micro : Int) : Int :=
  daysFromCivil y m d * usPerDay + (hh * 3600 + mm * 60 + ss) * usPerSec + micro

/-- A strptime `%z` offset accepted by the two timezone formats: `Z`, or a
sign with `HHMM` or `HH:MM` (the parsed value is then discarded by
`.replace(tzinfo=timezone.utc)`, so only acceptance matters). -/
def tzSuffixOk (l : List Char) : Bool :=
  match l with
  | ['Z'] => true
  | s :: h1 :: h2 :: ':' :: m1 :: m2 :: [] =>
      (s = '+' || s = '-') && h1.isDigit && h2.isDigit && m1.isDigit && m2.isDigit
  | s :: h1 :: h2 :: m1 :: m2 :: [] =>
      (s = '+' || s = '-') && h1.isDigit && h2.isDigit && m1.isDigit && m2.isDigit
  | _ => false

/-- The `%f` fractional-second field: one to six digits, scaled to
microseconds. -/
def parseFrac (l : List Char) : Option (Int × List Char) :=
  let ds := l.takeWhile Char.isDigit
  if 1 ≤ ds.length ∧ ds.length ≤ 6 then
    some ((natOfDigits ds * 10 ^ (6 - ds.length) : Nat), l.dropWhile Char.isDigit)
  else none

/-- strptime with format `%Y-%m-%d`. -/
def fmtDate (l : List Char) : Option Int := do
  let (ymd, t) ← parseDatePart l
  if t = [] then return usFromParts ymd.1 ymd.2.1 ymd.2.2 0 0 0 0 else none

/-- strptime with format `%Y-%m-%dT%H:%M:%S`. -/
def fmtDT (l : List Char) : Option Int := do
  let (ymd, t1) ← parseDatePart l
  let t2 ← expectChar 'T' t1
  let (hms, t3) ← parseTimePart t2
  if t3 = [] then return usFromParts ymd.1 ymd.2.1 ymd.2.2 hms.1 hms.2.1 hms.2.2 0
  else none

/-- strptime with format `%Y-%m-%dT%H:%M:%SZ` (literal `Z`). -/
def fmtDTZlit (l : List Char) : Option Int := do
  let (ymd, t1) ← parseDatePart l
  let t2 ← expectChar 'T' t1
  let (hms, t3) ← parseTimePart t2
  if t3 = ['Z'] then return usFromParts ymd.1 ymd.2.1 ymd.2.2 hms.1 hms.2.1 hms.2.2 0
  else none

/-- strptime with format `%Y-%m-%dT%H:%M:%S%z` (offset then discarded by
the `.replace(tzinfo=timezone.utc)`). -/
def fmtDTz (l : List Char) : Option Int := do
  let (ymd, t1) ← parseDatePart l
  let t2 ← expectChar 'T' t1
  let (hms, t3) ← parseTimePart t2
  if tzSuffixOk t3 then return usFromParts ymd.1 ymd.2.1 ymd.2.2 hms.1 hms.2.1 hms.2.2 0
  else none

/-- strptime with format `%Y-%m-%dT%H:%M:%S.%f%z`. -/
def fmtDTfz (l : List Char) : Option Int := do
  let (ymd, t1) ← parseDatePart l
  let t2 ← expectChar 'T' t1
  let (hms, t3) ← parseTimePart t2
  let t4 ← expectChar '.' t3
  let (micro, t5) ← parseFrac t4
  if tzSuffixOk t5 then
    return usFromParts ymd.1 ymd.2.1 ymd.2.2 hms.1 hms.2.1 hms.2.2 micro
  else none

/-- The ordered format list of `parse_date`: first successful pattern
wins. -/
def tryFormats (s : String) : Option Int :=
  fmtDate s.toList <|> fmtDT s.toList <|> fmtDTZlit s.toList <|>
    fmtDTz s.toList <|> fmtDTfz s.toList

/-- Model of Python `float()` on the strings this code can meet: optional
sign, digits with an optional point and fraction, optional exponent,
whitespace stripped (the `inf`/`nan`/underscore spellings are irrelevant
to any behaviour proved here). -/
def pyFloat (s : String) : Option ℚ :=
  let l := pyStripL s.toList
  let (sgn, l1) : ℚ × List Char :=
    match l with
    | '+' :: t => (1, t)
    | '-' :: t => (-1, t)
    | t => (1, t)
  let ip := l1.takeWhile Char.isDigit
  let l2 := l1.dropWhile Char.isDigit
  let (fp, l3) : List Char × List Char :=
    match l2 with
    | '.' :: t => (t.takeWhile Char.isDigit, t.dropWhile Char.isDigit)
    | t => ([], t)
  if ip = [] ∧ fp = [] then none
  else
    let mant : ℚ := (sgn) * ((natOfDigits ip : ℚ) + (natOfDigits fp : ℚ) / 10 ^ fp.length)
    match l3 with
    | [] => some mant
    | 'e' :: t | 'E' :: t =>
        let (esgn, t1) : Int × List Char :=
          match t with
          | '+' :: r => (1, r)
          | '-' :: r => (-1, r)
          | r => (1, r)
        let ed := t1.takeWhile Char.isDigit
        if ed ≠ [] ∧ t1.dropWhile Char.isDigit = [] then
          some (mant * (10 : ℚ) ^ (esgn * (natOfDigits ed : Int)))
        else none
    | _ => none

/-- Microseconds `datetime.fromtimestamp(ts, tz=utc)` yields for a POSIX
seconds value (rounded to microsecond resolution). -/
def usOfTimestamp (ts : ℚ) : Int :=
  ⌊ts * 1000000 + 1 / 2⌋

/-- Earliest/latest microsecond instants representable by `datetime`
(year 1 to 9999); `fromtimestamp` outside this range raises and
`parse_date` falls through to the format list. -/
def minDatetimeUs : Int := -62135596800000000

def maxDatetimeUs : Int := 253402300799999999

/-- Embedding of `dates.parse_date`: `None` for a missing/empty string;
then the whole string is tried as a Unix timestamp; then the ordered
strptime format list.  Result is microseconds since the epoch, UTC. -/
def parse_date (date_str : Option String) : Option Int :=
  match date_str with
  | none => none
  | some s =>
      if s = "" then none
      else
        match pyFloat s with
        | some ts =>
            let us := usOfTimestamp ts
            if minDatetimeUs ≤ us ∧ us ≤ maxDatetimeUs then some us else tryFormats s
        | none => tryFormats s

/-- strptime with format `%Y-%m-%d` followed by `.date()`: the day
ordinal, whose integer order is exactly Python `date` order. -/
def strptime_ymd (s : String) : Option Int := do
  let (ymd, t) ← parseDatePart s.toList
  if t = [] then return daysFromCivil ymd.1 ymd.2.1 ymd.2.2 else none

/-- Embedding of `dates.get_date_confidence`: `low` for a missing date;
parse all three strings strictly as `%Y-%m-%d` (any failure, including a
datetime-formatted boundary, raises `ValueError` and yields `low`);
inside the inclusive range gives `high`, before it or after it gives
`low`. -/
def get_date_confidence (date_str : Option String) (from_date to_date : String) : String :=
  match date_str with
  | none => "low"
  | some s =>
      if s = "" then "low"
      else
        match strptime_ymd s, strptime_ymd from_date, strptime_ymd to_date with
        | some dt, some start, some stop =>
            if start ≤ dt ∧ dt ≤ stop then "high"
            else if dt < start then "low"
            else "low"
        | _, _, _ => "low"

/-- Python `int()` truncation toward zero on a rational. -/
def pyTrunc (q : ℚ) : Int :=
  q.num.tdiv q.den

/-- The scoring arithmetic of `recency_score` after the date has parsed:
age and maximum duration in microseconds (the seconds ratio the code
computes equals the microsecond ratio exactly). -/
def score_of_age (age maxUs : Int) : Int :=
  if age < 0 then 100
  else if age ≥ maxUs then 0
  else pyTrunc (100 * (1 - (age : ℚ) / (maxUs : ℚ)))

/-- Embedding of `dates.recency_score`: 0 for a missing or unparsable
date, then the clamped linear interpolation on the age `now - parsed`. -/
def recency_score (date_str : Option String) (max_duration : PyDuration)
    (now : Int) : Int :=
  match date_str with
  | none => 0
  | some s =>
      if s = "" then 0
      else
        match parse_date (some s) with
        | none => 0
        | some parsed => score_of_age (now - parsed) (toUs max_duration)

/-! ## normalize.py -/

/-- Characters allowed in a URL scheme after the leading letter
(`urllib.parse.scheme_chars`). -/
def schemeChar (c : Char) : Bool :=
  c.isAlphanum || c = '+' || c = '-' || c = '.'

/-- The input cleanup `urllib.parse.urlsplit` performs: strip leading
C0-control-or-space characters, remove every tab, CR and LF. -/
def urlClean (l : List Char) : List Char :=
  (l.dropWhile (fun c => c ≤ ' ')).filter (fun c => !(c = '\t' || c = '\r' || c = '\n'))

/-- Scheme extraction of `urllib.parse.urlsplit`: the part before the
first `:` is the scheme (lower-cased) when it starts with an ASCII letter
and uses only scheme characters; otherwise there is no scheme. -/
def splitScheme (l : List Char) : List Char × List Char :=
  let pre := l.takeWhile (fun c => c ≠ ':')
  let post := l.dropWhile (fun c => c ≠ ':')
  match post with
  | ':' :: rest =>
      match pre with
      | [] => ([], l)
      | c0 :: _ =>
          if c0.isAlpha && pre.all schemeChar then (pre.map Char.toLower, rest)
          else ([], l)
  | _ => ([], l)

/-- Netloc extraction of `urllib.parse.urlsplit`: when the rest starts
with `//`, the netloc runs up to the next `/`, `?` or `#` (bracketed-host
validation is not modelled; no claim touches bracketed hosts). -/
def splitNetloc (l : List Char) : List Char :=
  match l with
  | '/' :: '/' :: rest => rest.takeWhile (fun c => !(c = '/' || c = '?' || c = '#'))
  | _ => []

/-- Model of `urllib.parse.urlparse(url)` restricted to the two fields
`normalize.py` reads: `(scheme, netloc)`. -/
def urlparse (url : String) : String × String :=
  let l := urlClean url.toList
  let (sch, rest) := splitScheme l
  (⟨sch⟩, ⟨splitNetloc rest⟩)

/-- Embedding of `normalize.is_valid_url`: a nonempty string whose parse
yields scheme `http` or `https` and a nonempty netloc. -/
def is_valid_url (url : String) : Bool :=
  if url = "" then false
  else
    let p := urlparse url
    (p.1 == "http" || p.1 == "https") && !(p.2 == "")

/-- Embedding of `normalize.is_valid_reddit_url`: `is_valid_url` plus an
exact netloc match against the reddit host allow-list. -/
def is_valid_reddit_url (url : String) : Bool :=
  if !is_valid_url url then false
  else
    let p := urlparse url
    p.2 == "reddit.com" || p.2 == "www.reddit.com" || p.2 == "old.reddit.com"

/-- Embedding of `normalize._normalize_date_for_comparison`: empty for an
empty string, the part before the first `T` when one occurs, otherwise
the string itself. -/
def normalize_date_for_comparison (date_str : String) : String :=
  if date_str = "" then ""
  else if date_str.toList.contains 'T' then ⟨date_str.toList.takeWhile (fun c => c ≠ 'T')⟩
  else date_str

/-- A normalized item as `filter_by_date_range` sees it: a nullable date
and an opaque payload standing for every other field. -/
structure NItem (α : Type) where
  date : Option String
  payload : α
deriving DecidableEq

/-- The keep-decision `filter_by_date_range` makes for one item. -/
def keepItem (fromN toN : String) (require_date : Bool) (item : NItem α) : Bool :=
  match item.date with
  | none => !require_date
  | some d =>
      let dn := normalize_date_for_comparison d
      if dn < fromN then false
      else if toN < dn then false
      else true

/-- The result-accumulating loop of `filter_by_date_range`. -/
def filterGo (require_date : Bool) (fromN toN : String) :
    List (NItem α) → List (NItem α)
  | [] => []
  | item :: rest =>
      if keepItem fromN toN require_date item then
        item :: filterGo require_date fromN toN rest
      else
        filterGo require_date fromN toN rest

/-- Embedding of `normalize.filter_by_date_range`: normalize both
boundaries, then walk the list keeping dateless items unless
`require_date`, dropping items whose normalized date is strictly before
`from` or strictly after `to` (Python string order on these strings is
code-point lexicographic order, as modelled by `String` order here). -/
def filter_by_date_range (items : List (NItem α)) (from_date to_date : String)
    (require_date : Bool) : List (NItem α) :=
  filterGo require_date (normalize_date_for_comparison from_date)
    (normalize_date_for_comparison to_date) items

/-! ## Claims -/

/-- C1: the spec says `get_date_confidence` compares the date-only portion
of the date and of each boundary, splitting at the first `T`, so that
datetime-formatted boundaries classify an in-range date as `high`; the
code instead parses all three strings strictly as `%Y-%m-%d`, so a
datetime-formatted boundary fails to parse and every date is classified
`low` — contradicting the repository's own test
`test_handles_iso_datetime`, which asserts `high` for exactly this input.
The date-only case behaves as specified. -/
theorem C1_datetime_boundary_low :
    get_date_confidence (some "2026-01-15")
        "2026-01-01T00:00:00+00:00" "2026-01-31T23:59:59+00:00" = "low" ∧
    get_date_confidence (some "2026-01-15") "2026-01-01" "2026-01-31" = "high" := by
  exact ⟨rfl, rfl⟩

/-- C3 counterexample: `save_cache` is claimed never to raise, even when
creating the cache directory fails; but `ensure_cache_dir()` runs outside
the `try`, so a `mkdir` failure propagates to the caller. -/
theorem C3_counterexample :
    save_cache (α := String) ⟨false, true⟩ none "payload" = .error () := rfl

/-- C3 amended: a filesystem failure of the JSON file write is swallowed
and the call returns normally (leaving the old content in place), but a
failure to create the cache directory propagates as an error. -/
theorem C3_save_cache_amended {α : Type} (e : IOEnv) (disk : Option α) (data : α) :
    (e.mkdirOk = true →
      save_cache e disk data = .ok (if e.writeOk then some data else disk)) ∧
    (e.mkdirOk = false → save_cache e disk data = .error ()) := by
  obtain ⟨mk, w⟩ := e
  constructor
  · intro h
    simp only at h
    subst h
    cases w <;> rfl
  · intro h
    simp only at h
    subst h
    rfl

/-- C3 amended, witnessed at a concrete state: with the directory in
place and a failing write, the call returns normally and the old content
survives. -/
theorem C3_save_cache_amended_witness :
    save_cache (α := String) ⟨true, false⟩ (some "old") "new" = .ok (some "old") := by
  have h := (C3_save_cache_amended (α := String) ⟨true, false⟩ (some "old") "new").1 rfl
  simpa using h

/-- C4: `is_cache_valid` is false when the file does not exist or cannot
be stat'ed, and otherwise true iff the age in hours is strictly below the
TTL (age exactly equal to the TTL is expired); consequently `load_cache`
returns `none` for an invalid file, for a file at or beyond the TTL even
when its content parses, and for a file whose content fails to parse. -/
theorem C4_cache_validity {α : Type} (now : ℚ) (f : CFile α) (ttl : ℚ) :
    (f.exists_ = false → is_cache_valid now f ttl = false) ∧
    (f.statMtime = none → is_cache_valid now f ttl = false) ∧
    (∀ m, f.exists_ = true → f.statMtime = some m →
      (is_cache_valid now f ttl = true ↔ (now - m) / 3600 < ttl)) ∧
    (∀ m, f.statMtime = some m → (now - m) / 3600 = ttl →
      is_cache_valid now f ttl = false) ∧
    (is_cache_valid now f ttl = false → load_cache now f ttl = none) ∧
    (∀ m, f.statMtime = some m → ttl ≤ (now - m) / 3600 →
      load_cache now f ttl = none) ∧
    (f.content = none → load_cache now f ttl = none) := by
  refine ⟨?_, ?_, ?_, ?_, ?_, ?_, ?_⟩
  · intro h
    simp [is_cache_valid, h]
  · intro h
    cases hx : f.exists_ <;> simp [is_cache_valid, h, hx]
  · intro m hx hm
    simp [is_cache_valid, hx, hm]
  · intro m hm hage
    cases hx : f.exists_ <;> simp [is_cache_valid, hx, hm, hage]
  · intro h
    simp [load_cache, h]
  · intro m hm hage
    have hvalid : is_cache_valid now f ttl = false := by
      cases hx : f.exists_
      · simp [is_cache_valid, hx]
      · simp [is_cache_valid, hx, hm]
        exact hage
    simp [load_cache, hvalid]
  · intro h
    cases hv : is_cache_valid now f ttl <;> simp [load_cache, hv, h]

/-- C4 witness: a file one hour old is valid against a 2-hour TTL, a file
exactly at the TTL is expired, and a stale file loads as `none` despite
parseable content. -/
theorem C4_cache_validity_witness :
    is_cache_valid 7200 (⟨true, some 3600, some 42⟩ : CFile Nat) 2 = true ∧
    is_cache_valid 7200 (⟨true, some 0, some 42⟩ : CFile Nat) 2 = false ∧
    load_cache 7200 (⟨true, some 0, some 42⟩ : CFile Nat) 2 = none := by
  refine ⟨?_, ?_, ?_⟩
  · exact ((C4_cache_validity 7200 (⟨true, some 3600, some 42⟩ : CFile Nat) 2).2.2.1
      3600 rfl rfl).mpr (by norm_num)
  · exact (C4_cache_validity 7200 (⟨true, some 0, some 42⟩ : CFile Nat) 2).2.2.2.1
      0 rfl (by norm_num)
  · exact (C4_cache_validity 7200 (⟨true, some 0, some 42⟩ : CFile Nat) 2).2.2.2.2.2.1
      0 rfl (by norm_num)

/-- Replacing the value stored under key `a` does not change the entry
`find?` locates for a different key `k`. -/
theorem find?_key_map_set (d : Dict) (a v k : String) (h : k ≠ a) :
    List.find? (fun p => p.1 == k) (d.map (fun p => if p.1 == a then (a, v) else p)) =
      List.find? (fun p => p.1 == k) d := by
  induction d with
  | nil => rfl
  | cons p rest ih =>
      simp only [List.map_cons]
      by_cases hpa : p.1 = a
      · rw [if_pos (beq_iff_eq.mpr hpa)]
        have hak : ¬ (((a, v).1 == k) = true) := by
          simp only [beq_iff_eq]
          exact fun hk => h hk.symm
        have hpk : ¬ ((p.1 == k) = true) := by
          simp only [beq_iff_eq, hpa]
          exact fun hk => h hk.symm
        rw [List.find?_cons_of_neg (p := fun (q : String × String) => q.1 == k) _ hak,
          List.find?_cons_of_neg (p := fun (q : String × String) => q.1 == k) _ hpk]
        exact ih
      · rw [if_neg (fun hc => hpa (beq_iff_eq.mp hc))]
        cases hpk : (p.1 == k) with
        | true =>
            rw [List.find?_cons_of_pos (p := fun (q : String × String) => q.1 == k) _ hpk,
              List.find?_cons_of_pos (p := fun (q : String × String) => q.1 == k) _ hpk]
        | false =>
            rw [List.find?_cons_of_neg (p := fun (q : String × String) => q.1 == k) _ (by simp [hpk]),
              List.find?_cons_of_neg (p := fun (q : String × String) => q.1 == k) _ (by simp [hpk])]
            exact ih

/-- Setting one key of a Python dict leaves every other key's lookup
unchanged. -/
theorem dget_dset_ne (d : Dict) (a v k : String) (h : k ≠ a) :
    dget (dset d a v) k = dget d k := by
  unfold dset
  split
  · unfold dget
    rw [find?_key_map_set d a v k h]
  · unfold dget
    rw [List.find?_append]
    have hnone : List.find? (fun p => p.1 == k) [(a, v)] = none := by
      apply List.find?_cons_of_neg
      simp only [beq_iff_eq]
      exact fun hk => h hk.symm
    rw [hnone]
    simp

/-- The concrete model-cache file shared by the C2 scenarios: it exists,
parses, holds one provider key, and has mtime 0. -/
def c2file : CFile Dict := ⟨true, some 0, some [("openai", "gpt-4")]⟩

/-- At `now = 608400` s the file's age is 169 h, beyond the 7-day TTL. -/
theorem c2file_stale_invalid :
    is_cache_valid (608400 : ℚ) c2file (MODEL_CACHE_TTL_DAYS * 24) = false := by
  simp [is_cache_valid, c2file, MODEL_CACHE_TTL_DAYS]
  norm_num

/-- At `now = 3600` s the file's age is 1 h, within the 7-day TTL. -/
theorem c2file_fresh_valid :
    is_cache_valid (3600 : ℚ) c2file (MODEL_CACHE_TTL_DAYS * 24) = true := by
  simp [is_cache_valid, c2file, MODEL_CACHE_TTL_DAYS]
  norm_num

/-- Result of `set_cached_model` on the fresh file: the whole map,
including the preexisting key, is written back. -/
theorem c2file_set_fresh :
    set_cached_model "anthropic" "claude-3" ⟨true, true⟩ c2file 3600 "t" =
      .ok ⟨true, some 3600, some [("openai", "gpt-4"), ("anthropic", "claude-3"),
        ("updated_at", "t")]⟩ := by
  have hload : load_model_cache (3600 : ℚ) c2file = [("openai", "gpt-4")] := by
    simp [load_model_cache, c2file_fresh_valid]
    rfl
  unfold set_cached_model
  rw [hload]
  rfl

/-- C2 counterexample: the on-disk preference map is older than the 7-day
TTL (mtime 0, now 608400 s = 169 h) and holds the key `openai`; after
`set_cached_model` writes another provider's entry, `openai` is gone,
because the read-for-write goes through the TTL-checking
`load_model_cache` and started from an empty map. -/
theorem C2_counterexample :
    dget (c2file.content.getD []) "openai" = some "gpt-4" ∧
    (set_cached_model "anthropic" "claude-3" ⟨true, true⟩ c2file 608400 "t").map
      (fun f => dget (f.content.getD []) "openai") = .ok none := by
  constructor
  · rfl
  · have hload : load_model_cache (608400 : ℚ) c2file = [] := by
      simp [load_model_cache, c2file_stale_invalid]
    unfold set_cached_model
    rw [hload]
    rfl

/-- C2 amended: `set_cached_model` reads the map through the TTL-checking
loader, so other keys survive only when the on-disk file is still within
the 7-day TTL; in that case every key other than the one being set and
`updated_at` is present afterwards with its old value (when the write
fails it is swallowed and the file is untouched, which also preserves the
keys). When the file is stale the map is rebuilt from empty and other
keys are lost. -/
theorem C2_set_preserves_keys_when_fresh (provider model nowIso : String)
    (e : IOEnv) (f : CFile Dict) (now : ℚ) (k : String) (f' : CFile Dict) :
    is_cache_valid now f (MODEL_CACHE_TTL_DAYS * 24) = true →
    set_cached_model provider model e f now nowIso = .ok f' →
    k ≠ provider → k ≠ "updated_at" →
    dget (f'.content.getD []) k = dget (f.content.getD []) k := by
  intro hvalid hset hkp hku
  obtain ⟨mk, w⟩ := e
  have hload : load_model_cache now f = f.content.getD [] := by
    unfold load_model_cache
    simp [hvalid]
  unfold set_cached_model save_model_cache ensure_cache_dir at hset
  rw [hload] at hset
  cases mk with
  | false =>
      exact absurd hset (by simp [Bind.bind, Except.bind])
  | true =>
      cases w with
      | false =>
          have hf : f = f' := by
            simpa [Bind.bind, Except.bind, pure, Except.pure] using hset
          rw [← hf]
      | true =>
          have hf : (⟨true, some now,
              some (dset (dset (f.content.getD []) provider model) "updated_at" nowIso)⟩ :
              CFile Dict) = f' := by
            simpa [Bind.bind, Except.bind, pure, Except.pure] using hset
          rw [← hf]
          simp only [Option.getD_some]
          rw [dget_dset_ne _ _ _ _ hku, dget_dset_ne _ _ _ _ hkp]

/-- C2 amended, witnessed: a fresh file (age 1 h) holding `openai` keeps
that key across a `set_cached_model` call for `anthropic`. -/
theorem C2_set_preserves_keys_witness :
    dget (((⟨true, some 3600, some [("openai", "gpt-4"), ("anthropic", "claude-3"),
        ("updated_at", "t")]⟩ : CFile Dict)).content.getD []) "openai" =
      dget (c2file.content.getD []) "openai" := by
  exact C2_set_preserves_keys_when_fresh "anthropic" "claude-3" "t" ⟨true, true⟩
    c2file 3600 "openai"
    ⟨true, some 3600, some [("openai", "gpt-4"), ("anthropic", "claude-3"),
      ("updated_at", "t")]⟩
    c2file_fresh_valid c2file_set_fresh (by decide) (by decide)

/-- Window length in hours is monotone in the underlying duration. -/
theorem totalHours_mono {d1 d2 : PyDuration} (h : toUs d1 ≤ toUs d2) :
    totalHours d1 ≤ totalHours d2 := by
  unfold totalHours
  have hq : (toUs d1 : ℚ) ≤ (toUs d2 : ℚ) := by exact_mod_cast h
  gcongr

/-- C5: `calculate_ttl` is the claimed step function of the window length
(each `elif` bucket produces its stated value, with every boundary in the
lower bucket), it is monotone non-decreasing in the duration, and the
five boundary durations evaluate to the lower bucket's value. -/
theorem C5_calculate_ttl :
    (∀ d, totalHours d ≤ 2 → calculate_ttl d = 0.5) ∧
    (∀ d, 2 < totalHours d → totalHours d ≤ 6 → calculate_ttl d = 1.0) ∧
    (∀ d, 6 < totalHours d → totalHours d ≤ 24 → calculate_ttl d = 2.0) ∧
    (∀ d, 24 < totalHours d → totalHours d ≤ 72 → calculate_ttl d = 6.0) ∧
    (∀ d, 72 < totalHours d → totalHours d ≤ 168 → calculate_ttl d = 12.0) ∧
    (∀ d, 168 < totalHours d → calculate_ttl d = 24) ∧
    (∀ d1 d2, toUs d1 ≤ toUs d2 → calculate_ttl d1 ≤ calculate_ttl d2) ∧
    calculate_ttl (.td (2 * usPerHour)) = 0.5 ∧
    calculate_ttl (.td (6 * usPerHour)) = 1.0 ∧
    calculate_ttl (.td (24 * usPerHour)) = 2.0 ∧
    calculate_ttl (.td (72 * usPerHour)) = 6.0 ∧
    calculate_ttl (.td (168 * usPerHour)) = 12.0 := by
  have h2 : totalHours (.td (2 * usPerHour)) = 2 := by
    unfold totalHours toUs usPerHour
    norm_num
  have h6 : totalHours (.td (6 * usPerHour)) = 6 := by
    unfold totalHours toUs usPerHour
    norm_num
  have h24 : totalHours (.td (24 * usPerHour)) = 24 := by
    unfold totalHours toUs usPerHour
    norm_num
  have h72 : totalHours (.td (72 * usPerHour)) = 72 := by
    unfold totalHours toUs usPerHour
    norm_num
  have h168 : totalHours (.td (168 * usPerHour)) = 168 := by
    unfold totalHours toUs usPerHour
    norm_num
  refine ⟨?_, ?_, ?_, ?_, ?_, ?_, ?_, ?_, ?_, ?_, ?_, ?_⟩
  · intro d h
    unfold calculate_ttl DEFAULT_TTL_HOURS
    split_ifs <;> first | rfl | linarith
  · intro d h1 h
    unfold calculate_ttl DEFAULT_TTL_HOURS
    split_ifs <;> first | rfl | linarith
  · intro d h1 h
    unfold calculate_ttl DEFAULT_TTL_HOURS
    split_ifs <;> first | rfl | linarith
  · intro d h1 h
    unfold calculate_ttl DEFAULT_TTL_HOURS
    split_ifs <;> first | rfl | linarith
  · intro d h1 h
    unfold calculate_ttl DEFAULT_TTL_HOURS
    split_ifs <;> first | rfl | linarith
  · intro d h1
    unfold calculate_ttl DEFAULT_TTL_HOURS
    split_ifs <;> first | rfl | linarith
  · intro d1 d2 h
    have hh := totalHours_mono h
    unfold calculate_ttl DEFAULT_TTL_HOURS
    split_ifs <;> linarith
  · unfold calculate_ttl DEFAULT_TTL_HOURS
    split_ifs <;> first | rfl | linarith [h2.le, h2.ge]
  · unfold calculate_ttl DEFAULT_TTL_HOURS
    split_ifs <;> first | rfl | linarith [h6.le, h6.ge]
  · unfold calculate_ttl DEFAULT_TTL_HOURS
    split_ifs <;> first | rfl | linarith [h24.le, h24.ge]
  · unfold calculate_ttl DEFAULT_TTL_HOURS
    split_ifs <;> first | rfl | linarith [h72.le, h72.ge]
  · unfold calculate_ttl DEFAULT_TTL_HOURS
    split_ifs <;> first | rfl | linarith [h168.le, h168.ge]

/-- C5 witness: a 2-hour window gets the 30-minute TTL, a window one
microsecond longer is in the next bucket, and a 30-day window gets the
24-hour default. -/
theorem C5_calculate_ttl_witness :
    calculate_ttl (.td (2 * usPerHour)) = 0.5 ∧
    calculate_ttl (.td (30 * 24 * usPerHour)) = 24 := by
  constructor
  · exact C5_calculate_ttl.2.2.2.2.2.2.2.1
  · exact C5_calculate_ttl.2.2.2.2.2.1 (.td (30 * 24 * usPerHour)) (by
      unfold totalHours toUs usPerHour
      norm_num)

/-- The filter loop is `List.filter` with the item keep-decision. -/
theorem filterGo_eq_filter {α : Type} (r : Bool) (fromN toN : String)
    (l : List (NItem α)) :
    filterGo r fromN toN l = l.filter (keepItem fromN toN r) := by
  induction l with
  | nil => rfl
  | cons item rest ih =>
      unfold filterGo
      cases h : keepItem fromN toN r item <;> simp [List.filter_cons, h, ih]

/-- C8: the hard date filter is idempotent — applying it a second time
with the same boundaries and flag returns its own output unchanged. -/
theorem C8_hard_filter_idempotent {α : Type} (items : List (NItem α))
    (from_date to_date : String) (require_date : Bool) :
    filter_by_date_range (filter_by_date_range items from_date to_date require_date)
      from_date to_date require_date =
    filter_by_date_range items from_date to_date require_date := by
  unfold filter_by_date_range
  rw [filterGo_eq_filter, filterGo_eq_filter, List.filter_filter]
  simp [Bool.and_self]

/-- C9: `is_valid_url` accepts only URLs whose parse yields scheme `http`
or `https` and a nonempty host; the script-injection and local-file
schemes are rejected, a plain https URL is accepted, and the
host-spoofing URL `https://reddit.com@evil.com/` is not classified as a
reddit source. -/
theorem C9_url_safety :
    (∀ u : String, is_valid_url u = true →
      ((urlparse u).1 = "http" ∨ (urlparse u).1 = "https") ∧ (urlparse u).2 ≠ "") ∧
    is_valid_url "javascript:alert(1)" = false ∧
    is_valid_url "file:///etc/passwd" = false ∧
    is_valid_url "https://example.com/x" = true ∧
    is_valid_reddit_url "https://reddit.com@evil.com/" = false := by
  refine ⟨?_, rfl, rfl, rfl, rfl⟩
  intro u h
  unfold is_valid_url at h
  by_cases hu : u = ""
  · rw [if_pos hu] at h
    exact absurd h (by simp)
  · rw [if_neg hu] at h
    simp only [Bool.and_eq_true, Bool.or_eq_true, beq_iff_eq, Bool.not_eq_eq_eq_not,
      Bool.not_true, beq_eq_false_iff_ne] at h
    exact h

/-- C9 witness: the only-if direction applied at the accepted URL. -/
theorem C9_url_safety_witness :
    ((urlparse "https://example.com/x").1 = "http" ∨
      (urlparse "https://example.com/x").1 = "https") ∧
    (urlparse "https://example.com/x").2 ≠ "" := by
  exact C9_url_safety.1 "https://example.com/x" rfl

/-- Python truncation agrees with the floor on nonnegative rationals
(the only place `recency_score` truncates, its operand is nonnegative). -/
theorem pyTrunc_eq_floor (q : ℚ) (h : 0 ≤ q) : pyTrunc q = ⌊q⌋ := by
  unfold pyTrunc
  rw [Rat.floor_def]
  exact Int.tdiv_eq_ediv (Rat.num_nonneg.mpr h) (Int.natCast_nonneg q.den)

/-- A negative age (future date) scores 100. -/
theorem score_of_age_neg (a mx : Int) (h : a < 0) : score_of_age a mx = 100 := by
  unfold score_of_age
  rw [if_pos h]

/-- An age at or beyond the maximum scores 0. -/
theorem score_of_age_expired (a mx : Int) (h1 : 0 ≤ a) (h2 : mx ≤ a) :
    score_of_age a mx = 0 := by
  unfold score_of_age
  rw [if_neg (not_lt.mpr h1), if_pos h2]

/-- In the interpolation branch the Python truncation is the floor of the
linear interpolation. -/
theorem score_of_age_mid (a mx : Int) (h1 : 0 ≤ a) (h2 : a < mx) :
    score_of_age a mx = ⌊(100 : ℚ) * (1 - (a : ℚ) / (mx : ℚ))⌋ := by
  unfold score_of_age
  rw [if_neg (not_lt.mpr h1), if_neg (not_le.mpr h2)]
  have hmx : (0 : Int) < mx := lt_of_le_of_lt h1 h2
  have hr1 : (a : ℚ) / (mx : ℚ) ≤ 1 := by
    rw [div_le_one (by exact_mod_cast hmx)]
    exact_mod_cast le_of_lt h2
  exact pyTrunc_eq_floor _ (by linarith)

/-- The scoring arithmetic always lands in `[0, 100]`. -/
theorem score_of_age_bounds (a mx : Int) :
    0 ≤ score_of_age a mx ∧ score_of_age a mx ≤ 100 := by
  rcases lt_or_le a 0 with hneg | hnn
  · rw [score_of_age_neg a mx hneg]
    exact ⟨by norm_num, le_refl 100⟩
  · rcases le_or_lt mx a with hge | hlt
    · rw [score_of_age_expired a mx hnn hge]
      exact ⟨le_refl 0, by norm_num⟩
    · rw [score_of_age_mid a mx hnn hlt]
      have hmx : (0 : Int) < mx := lt_of_le_of_lt hnn hlt
      have hr0 : (0 : ℚ) ≤ (a : ℚ) / (mx : ℚ) := by positivity
      have hr1 : (a : ℚ) / (mx : ℚ) ≤ 1 := by
        rw [div_le_one (by exact_mod_cast hmx)]
        exact_mod_cast le_of_lt hlt
      constructor
      · exact Int.floor_nonneg.mpr (by linarith)
      · have h100 : (100 : ℚ) * (1 - (a : ℚ) / (mx : ℚ)) ≤ 100 := by linarith
        calc ⌊(100 : ℚ) * (1 - (a : ℚ) / (mx : ℚ))⌋ ≤ ⌊(100 : ℚ)⌋ :=
              Int.floor_le_floor h100
          _ = 100 := by norm_num

/-- The scoring arithmetic is antitone in the age. -/
theorem score_of_age_antitone (a1 a2 mx : Int) (h : a1 ≤ a2) :
    score_of_age a2 mx ≤ score_of_age a1 mx := by
  rcases lt_or_le a2 0 with h2neg | h2nn
  · rw [score_of_age_neg a2 mx h2neg, score_of_age_neg a1 mx (lt_of_le_of_lt h h2neg)]
  · rcases le_or_lt mx a2 with h2ge | h2lt
    · rw [score_of_age_expired a2 mx h2nn h2ge]
      exact (score_of_age_bounds a1 mx).1
    · rcases lt_or_le a1 0 with h1neg | h1nn
      · rw [score_of_age_neg a1 mx h1neg]
        exact (score_of_age_bounds a2 mx).2
      · rw [score_of_age_mid a2 mx h2nn h2lt,
          score_of_age_mid a1 mx h1nn (lt_of_le_of_lt h h2lt)]
        apply Int.floor_le_floor
        have hmx : (0 : Int) < mx := lt_of_le_of_lt h2nn h2lt
        have hdiv : (a1 : ℚ) / (mx : ℚ) ≤ (a2 : ℚ) / (mx : ℚ) :=
          (div_le_div_right (by exact_mod_cast hmx)).mpr (by exact_mod_cast h)
        linarith

/-- C7: `recency_score` is 0 for an absent or unparsable date, 100 for a
negative age, 0 for age at or beyond `maxDuration`, the floor of the
linear interpolation otherwise; it always lies in `[0, 100]` and the
scoring arithmetic is monotonically non-increasing in the age. -/
theorem C7_recency_score :
    (∀ m now, recency_score none m now = 0) ∧
    (∀ s m now, parse_date (some s) = none → recency_score (some s) m now = 0) ∧
    (∀ s t m now, parse_date (some s) = some t → now - t < 0 →
      recency_score (some s) m now = 100) ∧
    (∀ s t m now, parse_date (some s) = some t → 0 ≤ now - t → toUs m ≤ now - t →
      recency_score (some s) m now = 0) ∧
    (∀ s t m now, parse_date (some s) = some t → 0 ≤ now - t → now - t < toUs m →
      recency_score (some s) m now =
        ⌊(100 : ℚ) * (1 - ((now - t : Int) : ℚ) / ((toUs m : Int) : ℚ))⌋) ∧
    (∀ d m now, 0 ≤ recency_score d m now ∧ recency_score d m now ≤ 100) ∧
    (∀ a1 a2 mx : Int, a1 ≤ a2 → score_of_age a2 mx ≤ score_of_age a1 mx) := by
  have hopen : ∀ (s : String) (t : Int) (m : PyDuration) (now : Int),
      parse_date (some s) = some t →
      recency_score (some s) m now = score_of_age (now - t) (toUs m) := by
    intro s t m now hp
    by_cases hs : s = ""
    · subst hs
      exact absurd hp (by simp [parse_date])
    · simp only [recency_score]
      rw [if_neg hs, hp]
  refine ⟨?_, ?_, ?_, ?_, ?_, ?_, score_of_age_antitone⟩
  · intro m now
    rfl
  · intro s m now hp
    by_cases hs : s = ""
    · subst hs
      rfl
    · simp only [recency_score]
      rw [if_neg hs, hp]
  · intro s t m now hp hage
    rw [hopen s t m now hp]
    exact score_of_age_neg _ _ hage
  · intro s t m now hp h0 hge
    rw [hopen s t m now hp]
    exact score_of_age_expired _ _ h0 hge
  · intro s t m now hp h0 hlt
    rw [hopen s t m now hp]
    exact score_of_age_mid _ _ h0 hlt
  · intro d m now
    match d with
    | none =>
        refine ⟨le_refl 0, ?_⟩
        show (0 : Int) ≤ 100
        norm_num
    | some s =>
        by_cases hs : s = ""
        · subst hs
          refine ⟨le_refl 0, ?_⟩
          show (0 : Int) ≤ 100
          norm_num
        · simp only [recency_score]
          rw [if_neg hs]
          match hp : parse_date (some s) with
          | none => exact ⟨le_refl 0, by norm_num⟩
          | some t => exact score_of_age_bounds _ _

/-- C7 witness: an unparsable date scores 0, a future date scores 100,
and a date exactly `maxDuration` old scores 0. -/
theorem C7_recency_score_witness :
    recency_score (some "garbage") (.int 30) 0 = 0 ∧
    recency_score (some "2026-01-15") (.int 30) 0 = 100 ∧
    recency_score (some "2026-01-15") (.int 30)
      (1768435200000000 + timedelta_days 30) = 0 := by
  refine ⟨?_, ?_, ?_⟩
  · exact C7_recency_score.2.1 "garbage" (.int 30) 0 rfl
  · exact C7_recency_score.2.2.1 "2026-01-15" 1768435200000000 (.int 30) 0 rfl
      (by decide)
  · exact C7_recency_score.2.2.2.1 "2026-01-15" 1768435200000000 (.int 30)
      (1768435200000000 + timedelta_days 30) rfl (by decide) (by decide)

/-- A whitespace character is not a digit. -/
theorem pySpace_not_digit (c : Char) (h : pySpace c = true) : c.isDigit = false := by
  unfold pySpace at h
  simp only [Bool.or_eq_true, decide_eq_true_eq] at h
  rcases h with ((((h | h) | h) | h) | h) | h <;> subst h <;> rfl

/-- Every unit token of the range pattern starts with a character that is
neither a digit nor whitespace (checked by evaluation). -/
theorem units_head_ok :
    unitTokens.all (fun u =>
      match u with
      | [] => false
      | c :: _ => !c.isDigit && !pySpace c) = true := by
  rfl

/-- Extraction of `units_head_ok` for one token. -/
theorem unit_head (u : List Char) (hu : u ∈ unitTokens) :
    u ≠ [] ∧ ∀ c t, u = c :: t → c.isDigit = false ∧ pySpace c = false := by
  have h := List.all_eq_true.mp units_head_ok u hu
  constructor
  · intro he
    rw [he] at h
    simp at h
  · intro c t he
    rw [he] at h
    simp only [Bool.and_eq_true, Bool.not_eq_true'] at h
    exact h

/-- `takeWhile`/`dropWhile` split an append exactly at the boundary when
the left part satisfies the predicate throughout and the right part does
not start with a satisfying character. -/
theorem takeWhile_dropWhile_append (p : Char → Bool) (xs ys : List Char)
    (h1 : ∀ c ∈ xs, p c = true)
    (h2 : ∀ c t, ys = c :: t → p c = false) :
    (xs ++ ys).takeWhile p = xs ∧ (xs ++ ys).dropWhile p = ys := by
  induction xs with
  | nil =>
      simp only [List.nil_append]
      cases ys with
      | nil => exact ⟨rfl, rfl⟩
      | cons c t =>
          have hc := h2 c t rfl
          rw [List.takeWhile_cons, List.dropWhile_cons]
          rw [hc]
          exact ⟨rfl, rfl⟩
  | cons x xs ih =>
      have hx : p x = true := h1 x (List.mem_cons_self x xs)
      have ih' := ih (fun c hc => h1 c (List.mem_cons_of_mem x hc))
      rw [List.cons_append, List.takeWhile_cons, List.dropWhile_cons, hx]
      simp only [if_true]
      exact ⟨by rw [ih'.1], by rw [ih'.2]⟩

/-- The implementation matcher succeeds exactly on the texts the spec
describes: a nonempty digit run, whitespace, and a recognized unit token. -/
theorem matchRange_some_iff (cs : List Char) :
    (∃ r, matchRange cs = some r) ↔ RangeSpec cs := by
  constructor
  · rintro ⟨r, hr⟩
    unfold matchRange at hr
    by_cases hds : (cs.takeWhile Char.isDigit).isEmpty = true
    · rw [if_pos hds] at hr
      exact absurd hr (by simp)
    · rw [if_neg hds] at hr
      by_cases hu : (cs.dropWhile Char.isDigit).dropWhile pySpace ∈ unitTokens
      · refine ⟨cs.takeWhile Char.isDigit, (cs.dropWhile Char.isDigit).takeWhile pySpace,
          (cs.dropWhile Char.isDigit).dropWhile pySpace, ?_, ?_, ?_, ?_, hu⟩
        · calc cs = cs.takeWhile Char.isDigit ++ cs.dropWhile Char.isDigit :=
                (List.takeWhile_append_dropWhile Char.isDigit cs).symm
            _ = cs.takeWhile Char.isDigit ++
                ((cs.dropWhile Char.isDigit).takeWhile pySpace ++
                  (cs.dropWhile Char.isDigit).dropWhile pySpace) := by
                rw [List.takeWhile_append_dropWhile pySpace (cs.dropWhile Char.isDigit)]
        · intro he
          rw [he] at hds
          exact hds rfl
        · intro c hc
          exact List.mem_takeWhile_imp hc
        · intro c hc
          exact List.mem_takeWhile_imp hc
      · rw [if_neg hu] at hr
        exact absurd hr (by simp)
  · rintro ⟨ds, sp, u, hcs, hne, hds, hsp, hu⟩
    have huh := unit_head u hu
    have hsplit1 : (ds ++ (sp ++ u)).takeWhile Char.isDigit = ds ∧
        (ds ++ (sp ++ u)).dropWhile Char.isDigit = sp ++ u := by
      apply takeWhile_dropWhile_append Char.isDigit ds (sp ++ u) hds
      intro c t he
      cases sp with
      | nil =>
          simp only [List.nil_append] at he
          exact (huh.2 c t he).1
      | cons c' t' =>
          rw [List.cons_append] at he
          have hc : c' = c := (List.cons.injEq _ _ _ _ ▸ he).1
          rw [← hc]
          exact pySpace_not_digit c' (hsp c' (List.mem_cons_self c' t'))
    have hsplit2 : (sp ++ u).takeWhile pySpace = sp ∧ (sp ++ u).dropWhile pySpace = u := by
      apply takeWhile_dropWhile_append pySpace sp u hsp
      intro c t he
      exact (huh.2 c t he).2
    have hde : ds.isEmpty = false := by
      cases ds with
      | nil => exact absurd rfl hne
      | cons a b => rfl
    refine ⟨(natOfDigits ds, u), ?_⟩
    unfold matchRange
    rw [hcs, hsplit1.1, hsplit1.2, hsplit2.2, hde]
    rw [if_neg (by simp), if_pos hu]

/-- C6: `parse_range` fails exactly when the trimmed, case-folded text is
not an unsigned integer followed by optional whitespace and a recognized
unit token; the failure message carries the (normalized) offending input
verbatim; and the spelled-out and abbreviated forms agree:
`parse_range "2 hours" = parse_range "2h"` is the 2-hour duration, while
`parse_range "5 seconds"` fails. -/
theorem C6_parse_range :
    (∀ s : String, (∃ msg, parse_range s = .error msg) ↔
      ¬ RangeSpec (pyLower (pyStrip s)).toList) ∧
    (∀ s msg, parse_range s = .error msg →
      msg = "Invalid range format: \x27" ++ pyLower (pyStrip s) ++
        "\x27. Use formats like \x272 hours\x27, \x273 days\x27, \x272 weeks\x27, \x276 months\x27") ∧
    parse_range "2 hours" = parse_range "2h" ∧
    parse_range "2h" = .ok 7200000000 ∧
    (∃ msg, parse_range "5 seconds" = .error msg) := by
  refine ⟨?_, ?_, rfl, rfl, ⟨_, rfl⟩⟩
  · intro s
    rw [← matchRange_some_iff]
    cases hm : matchRange (pyLower (pyStrip s)).toList with
    | none =>
        apply iff_of_true
        · exact ⟨_, by unfold parse_range; rw [hm]⟩
        · rintro ⟨r, hr⟩
          exact absurd hr (by simp)
    | some r =>
        apply iff_of_false
        · rintro ⟨msg, hmsg⟩
          unfold parse_range at hmsg
          rw [hm] at hmsg
          exact absurd hmsg (by simp)
        · intro hno
          exact hno ⟨r, rfl⟩
  · intro s msg h
    unfold parse_range at h
    cases hm : matchRange (pyLower (pyStrip s)).toList with
    | none =>
        rw [hm] at h
        exact (Except.error.inj h).symm
    | some r =>
        rw [hm] at h
        exact absurd h (by simp)

/-- C6 witness: `"5 seconds"` does not match the pattern — derived by
applying the equivalence at that input — and the failure message carries
the input. -/
theorem C6_parse_range_witness :
    ¬ RangeSpec (pyLower (pyStrip "5 seconds")).toList ∧
    parse_range "5 seconds" = .error ("Invalid range format: \x275 seconds\x27. " ++
      "Use formats like \x272 hours\x27, \x273 days\x27, \x272 weeks\x27, \x276 months\x27") := by
  refine ⟨(C6_parse_range.1 "5 seconds").mp ⟨_, rfl⟩, ?_⟩
  rfl

/-- C10: the legacy integer-days overload of `calculate_ttl`,
`get_date_range` and `recency_score` is definitionally the duration form
applied to `timedelta(days=n)`. -/
theorem C10_int_overload_equiv (n : Nat) (d : Option String) (now : Int) :
    calculate_ttl (.int (n : Int)) = calculate_ttl (.td (timedelta_days (n : Int))) ∧
    get_date_range (.int (n : Int)) now = get_date_range (.td (timedelta_days (n : Int))) now ∧
    recency_score d (.int (n : Int)) now = recency_score d (.td (timedelta_days (n : Int))) now := by
  exact ⟨rfl, rfl, rfl⟩

end Last2Hours
